import Mathlib

/-!
Shallow embedding of the streaming clinical-alerting client (`model.py`):
the MLLP frame codec, the HL7 field parsing, the per-patient database and
the PAS/LIMS message processing, the bootstrap of the database from the
historical CSV plus the recovery log, and the per-frame handling of the
main loop.  Strings of the Python source are modelled as `List Char`,
byte buffers as `List Nat` (one entry per byte), and numeric results as
`ℚ`.  Definitions are translated from the source; theorems at the end of
the file settle the specification claims.
-/

deriving instance DecidableEq for Except

namespace AkiClient

/-- The carriage-return character used as the HL7 segment delimiter. -/
def CRchar : Char := '\r'

/-- Model of Python's `str.split(sep)` for a one-character separator:
splitting never drops fields, and the empty string splits to `[[]]`. -/
def splitChar (c : Char) : List Char → List (List Char)
  | [] => [[]]
  | x :: xs =>
    if x = c then [] :: splitChar c xs
    else
      match splitChar c xs with
      | [] => [[x]]
      | g :: gs => (x :: g) :: gs

/-- Model of Python's `sep.join(segments)` for a one-character separator. -/
def joinChar (c : Char) : List (List Char) → List Char
  | [] => []
  | [s] => s
  | s :: rest => s ++ c :: joinChar c rest

/-- `startsWithL pat s` holds when `pat` is an initial run of `s`
(Python `s.startswith(pat)`). -/
def startsWithL : List Char → List Char → Bool
  | [], _ => true
  | _ :: _, [] => false
  | a :: as, b :: bs => a == b && startsWithL as bs

/-- Model of Python's substring containment `pat in s`. -/
def hasSubstr (pat : List Char) : List Char → Bool
  | [] => startsWithL pat []
  | c :: rest => startsWithL pat (c :: rest) || hasSubstr pat rest

/-- Model of `str(buffer, "ascii")`: succeeds iff every byte is below
`0x80`, in which case each byte becomes the corresponding character. -/
def decodeAscii : List Nat → Option (List Char)
  | [] => some []
  | b :: bs =>
    if b < 128 then (decodeAscii bs).map (Char.ofNat b :: ·)
    else none

/-- `from_mllp` (model.py:63-74): strip the first byte and the last three
bytes (`buffer[1:-3]`, which never raises in Python, even on short
input), decode the remainder as ASCII, and split it on carriage return.
`none` models the `UnicodeDecodeError` escaping the function. -/
def from_mllp (buffer : List Nat) : Option (List (List Char)) :=
  (decodeAscii ((buffer.take (buffer.length - 3)).drop 1)).map (splitChar CRchar)

/-- `to_mllp` (model.py:76-89): join the segments with carriage return,
append a trailing carriage return, and wrap the result between the
start-of-block byte `0x0b` and the end-of-block sequence `0x1c 0x0d`. -/
def to_mllp (segments : List (List Char)) : List Nat :=
  11 :: (joinChar CRchar segments ++ [CRchar]).map Char.toNat ++ [28, 13]

/-- The fixed acknowledgment message `ACK` (model.py:24-27). -/
def ACK : List (List Char) :=
  [ ("MSH|^~\\&|||||20240129093837||ACK|||2.5").toList,
    ("MSA|AA").toList ]

/-- Decimal digit test (`'0' ≤ c ≤ '9'`). -/
def isDigitCh (c : Char) : Bool :=
  decide ('0' ≤ c) && decide (c ≤ '9')

/-- Value of a digit string, most significant digit first. -/
def digitsToNat (ds : List Char) : Nat :=
  ds.foldl (fun a c => 10 * a + (c.toNat - 48)) 0

/-- Unsigned part of Python's `float()` on plain decimal literals:
digits with at most one dot and at least one digit in total. -/
def parseUFloat (s : List Char) : Option ℚ :=
  match splitChar '.' s with
  | [intp] =>
    if intp ≠ [] ∧ intp.all isDigitCh then some (digitsToNat intp : ℚ) else none
  | [intp, frac] =>
    if (intp ≠ [] ∨ frac ≠ []) ∧ intp.all isDigitCh ∧ frac.all isDigitCh then
      some ((digitsToNat intp : ℚ) + (digitsToNat frac : ℚ) / (10 : ℚ) ^ frac.length)
    else none
  | _ => none

/-- Model of Python's `float(str)` on decimal literals: optional sign,
then digits with an optional dot; anything else raises `ValueError`,
modelled as `none`. -/
def parseFloat : List Char → Option ℚ
  | '+' :: rest => parseUFloat rest
  | '-' :: rest => (parseUFloat rest).map Neg.neg
  | s => parseUFloat s

/-- Gregorian leap-year test, as validated by `datetime.strptime`. -/
def isLeap (y : Nat) : Bool :=
  (y % 4 == 0 && y % 100 != 0) || (y % 400 == 0)

/-- Number of days in a month, as validated by `datetime.strptime`. -/
def daysInMonth (y m : Nat) : Nat :=
  if m = 2 then (if isLeap y then 29 else 28)
  else if m = 4 ∨ m = 6 ∨ m = 9 ∨ m = 11 then 30
  else 31

/-- A calendar date-time as produced by `datetime.strptime`; only the
year, month and day are consumed downstream (for the age computation). -/
structure HDate where
  year : Nat
  month : Nat
  day : Nat
  hour : Nat
  minute : Nat
  second : Nat
deriving DecidableEq

/-- `datetime.strptime(s, "%Y%m%d%H%M%S")`: fourteen digits with the
calendar fields in range, else `ValueError` (modelled as `none`). -/
def parseDate14 (s : List Char) : Option HDate :=
  match s with
  | [y1, y2, y3, y4, m1, m2, d1, d2, h1, h2, n1, n2, s1, s2] =>
    if [y1, y2, y3, y4, m1, m2, d1, d2, h1, h2, n1, n2, s1, s2].all isDigitCh then
      let y := digitsToNat [y1, y2, y3, y4]
      let mo := digitsToNat [m1, m2]
      let d := digitsToNat [d1, d2]
      let h := digitsToNat [h1, h2]
      let mi := digitsToNat [n1, n2]
      let se := digitsToNat [s1, s2]
      if 1 ≤ mo ∧ mo ≤ 12 ∧ 1 ≤ d ∧ d ≤ daysInMonth y mo ∧ h ≤ 23 ∧ mi ≤ 59 ∧ se ≤ 61
      then some ⟨y, mo, d, h, mi, se⟩ else none
    else none
  | _ => none

/-- `datetime.strptime(s, "%Y%m%d")`: eight digits with the calendar
fields in range, else `ValueError` (modelled as `none`). -/
def parseDate8 (s : List Char) : Option HDate :=
  match s with
  | [y1, y2, y3, y4, m1, m2, d1, d2] =>
    if [y1, y2, y3, y4, m1, m2, d1, d2].all isDigitCh then
      let y := digitsToNat [y1, y2, y3, y4]
      let mo := digitsToNat [m1, m2]
      let d := digitsToNat [d1, d2]
      if 1 ≤ mo ∧ mo ≤ 12 ∧ 1 ≤ d ∧ d ≤ daysInMonth y mo
      then some ⟨y, mo, d, 0, 0, 0⟩ else none
    else none
  | _ => none

/-- One patient's entry in the database dictionary: the Python dict may
carry only `"results"` (records created by the CSV bootstrap), so the
demographic fields are optional. -/
structure PatientRecord where
  results : List ℚ
  sex : Option (List Char)
  age : Option ℤ
deriving DecidableEq

/-- The in-memory database: a mapping from medical record number to
patient record (the Python `database` dict). -/
def Database : Type := List Char → Option PatientRecord

/-- The empty dictionary. -/
def emptyDB : Database := fun _ => none

/-- `database[k] = v`. -/
def dbUpdate (db : Database) (k : List Char) (v : PatientRecord) : Database :=
  fun q => if q = k then some v else db q

/-- The exceptions that can escape a per-message processing step:
`fieldMissing` models `IndexError` on a segment or field access,
`badDate` a `ValueError` from `strptime`, `badNumber` a `ValueError`
from `float()`, `noPatient`/`noSex`/`noAge` the `KeyError`s raised by
the dictionary lookups in `lims_process`, and `truncated` the
`StopIteration` escaping the header skip of `_parse_history_file`. -/
inductive PErr where
  | fieldMissing
  | badDate
  | badNumber
  | noPatient
  | noSex
  | noAge
  | truncated
deriving DecidableEq

/-- The integer age computed in `pas_process` (model.py:217):
`current.year - dob.year`, minus one when the event's month/day pair
lexicographically precedes the birth month/day pair. -/
def ageFrom (current dob : HDate) : ℤ :=
  (current.year : ℤ) - (dob.year : ℤ) -
    (if current.month < dob.month ∨ (current.month = dob.month ∧ current.day < dob.day)
     then 1 else 0)

/-- The event-code substring `"A03"` marking a discharge. -/
def a03code : List Char := ['A', '0', '3']

/-- The event-code substring `"ADT"` marking a PAS message. -/
def adtCode : List Char := ['A', 'D', 'T']

/-- `pas_process` (model.py:200-230): on a discharge (`"A03"` in the
9th field of the first segment) return without touching the database;
otherwise parse the event timestamp, the date of birth and the sex from
fixed field positions, and overwrite (or create) the record for `mrn`.
Each access that can raise in Python is an error case here, and every
error leaves the database exactly as received. -/
def pas_process (mrn : List Char) (message : List (List Char)) (db : Database) :
    Database × Except PErr Unit :=
  match message[0]? with
  | none => (db, .error .fieldMissing)
  | some seg0 =>
    match (splitChar '|' seg0)[8]? with
    | none => (db, .error .fieldMissing)
    | some evt =>
      if hasSubstr a03code evt then (db, .ok ())
      else
        match (splitChar '|' seg0)[6]? with
        | none => (db, .error .fieldMissing)
        | some dateStr =>
          match parseDate14 dateStr with
          | none => (db, .error .badDate)
          | some current =>
            match message[1]? with
            | none => (db, .error .fieldMissing)
            | some seg1 =>
              match (splitChar '|' seg1)[7]? with
              | none => (db, .error .fieldMissing)
              | some dobStr =>
                match parseDate8 dobStr with
                | none => (db, .error .badDate)
                | some dob =>
                  match (splitChar '|' seg1)[8]? with
                  | none => (db, .error .fieldMissing)
                  | some sx =>
                    match db mrn with
                    | some rec =>
                      (dbUpdate db mrn
                        { rec with sex := some sx, age := some (ageFrom current dob) }, .ok ())
                    | none =>
                      (dbUpdate db mrn ⟨[], some sx, some (ageFrom current dob)⟩, .ok ())

/-- `lims_process` (model.py:232-266): parse the numeric result from the
6th field of the fourth segment, append it to the patient's history
**before** any demographic lookup, then build the 7-element test point:
the last five results when at least five exist, otherwise the running
mean repeated on the left; then insert the sex indicator and the age at
the front.  A missing `"sex"` or `"age"` key raises after the append, so
those error cases return the already-mutated database. -/
def lims_process (patient_id : List Char) (message : List (List Char)) (db : Database) :
    Database × Except PErr (List ℚ) :=
  match message[3]? with
  | none => (db, .error .fieldMissing)
  | some seg3 =>
    match (splitChar '|' seg3)[5]? with
    | none => (db, .error .fieldMissing)
    | some valStr =>
      match parseFloat valStr with
      | none => (db, .error .badNumber)
      | some v =>
        match db patient_id with
        | none => (db, .error .noPatient)
        | some rec =>
          let results' := rec.results ++ [v]
          let db' := dbUpdate db patient_id { rec with results := results' }
          let n := results'.length
          let base : List ℚ :=
            if 5 ≤ n then results'.drop (n - 5)
            else List.replicate (5 - n) (results'.sum / (n : ℚ)) ++ results'
          match rec.sex with
          | none => (db', .error .noSex)
          | some sx =>
            let withSex : List ℚ := (if sx = ['M'] then 1 else 0) :: base
            match rec.age with
            | none => (db', .error .noAge)
            | some a =>
              (db', .ok ((a : ℚ) :: withSex))

/-- The per-message step of the main loop (model.py:343-364): read the
event code from the first segment and the medical record number from the
second, then dispatch on the presence of `"ADT"` to `pas_process` or
`lims_process`.  Model inference and paging are external collaborators
with no effect on the database and are not modelled. -/
def process_message (message : List (List Char)) (db : Database) :
    Database × Except PErr Unit :=
  match message[0]? with
  | none => (db, .error .fieldMissing)
  | some seg0 =>
    match (splitChar '|' seg0)[8]? with
    | none => (db, .error .fieldMissing)
    | some evt =>
      match message[1]? with
      | none => (db, .error .fieldMissing)
      | some seg1 =>
        match (splitChar '|' seg1)[3]? with
        | none => (db, .error .fieldMissing)
        | some mrn =>
          if hasSubstr adtCode evt then pas_process mrn message db
          else
            ((lims_process mrn message db).1,
              ((lims_process mrn message db).2).map fun _ => ())

/-- One iteration of the inner read loop of `main` (model.py:334-367)
after a successful socket read: an empty buffer breaks the loop (no
acknowledgment); otherwise the frame is decoded and processed inside the
bare `try`/`except` (so any error is swallowed), and the fixed
acknowledgment frame is sent back unconditionally.  The second component
is the bytes written back on the connection, `none` when the loop broke. -/
def handle_frame (buffer : List Nat) (db : Database) : Database × Option (List Nat) :=
  if buffer = [] then (db, none)
  else
    match from_mllp buffer with
    | none => (db, some (to_mllp ACK))
    | some message => ((process_message message db).1, some (to_mllp ACK))

/-- Every second element of a list, starting with the first: models the
Python stride slice `row[2:len(row):2]` applied after `List.drop 2`. -/
def everySecond : List α → List α
  | [] => []
  | [x] => [x]
  | x :: _ :: rest => x :: everySecond rest

/-- `[float(x) for x in cells if x != ""]` (model.py:152): skip empty
cells, parse the rest; a cell that `float()` rejects raises out of the
comprehension, modelled as `none`. -/
def parseResults : List (List Char) → Option (List ℚ)
  | [] => some []
  | c :: rest =>
    if c = [] then parseResults rest
    else
      match parseFloat c, parseResults rest with
      | some v, some vs => some (v :: vs)
      | _, _ => none

/-- The CSV loop of `convert_history_to_dictionary` (model.py:147-153)
over the data rows (the header row already skipped): each row keys a
fresh record holding only the parsed results, later rows overwriting
earlier ones.  An empty row (`row[0]` raising `IndexError`) or an
unparseable cell aborts the bootstrap. -/
def buildFromCsvAux (db : Database) : List (List (List Char)) → Except PErr Database
  | [] => .ok db
  | row :: rest =>
    match row[0]?, parseResults (everySecond (row.drop 2)) with
    | some mrn, some rs => buildFromCsvAux (dbUpdate db mrn ⟨rs, none, none⟩) rest
    | none, _ => .error .fieldMissing
    | some _, none => .error .badNumber

/-- The cold CSV phase, starting from the empty dictionary. -/
def buildFromCsv (rows : List (List (List Char))) : Except PErr Database :=
  buildFromCsvAux emptyDB rows

/-- Consecutive pairing of the recovery-log lines: the `while` loop of
`_parse_history_file` reads two lines per iteration and a trailing odd
line is discarded by the caught `StopIteration`. -/
def toPairs : List α → List (α × α)
  | a :: b :: rest => (a, b) :: toPairs rest
  | _ => []

/-- The replay loop of `_parse_history_file` (model.py:110-118): for
each pair of lines, extract the medical record number from the 4th field
of the second line and run `pas_process` on the two-segment message.
Errors inside the loop body are not caught there and abort the
bootstrap. -/
def replayPairs (db : Database) : List (List Char × List Char) → Except PErr Database
  | [] => .ok db
  | (l1, l2) :: rest =>
    match (splitChar '|' l2)[3]? with
    | none => .error .fieldMissing
    | some mrn =>
      match pas_process mrn [l1, l2] db with
      | (db', .ok _) => replayPairs db' rest
      | (_, .error e) => .error e

/-- `_parse_history_file` (model.py:92-119): skip the two header lines
(a file with fewer than two lines lets `StopIteration` escape), then
replay the remaining lines in consecutive pairs. -/
def parse_history_file (db : Database) (lines : List (List Char)) : Except PErr Database :=
  match lines with
  | _ :: _ :: rest => replayPairs db (toPairs rest)
  | _ => .error .truncated

/-- The medical record numbers named by the recovery log's admission
pairs (the keys `_parse_history_file` can possibly touch). -/
def backupMrns (lines : List (List Char)) : List (List Char) :=
  match lines with
  | _ :: _ :: rest => (toPairs rest).filterMap fun pr => (splitChar '|' pr.2)[3]?
  | _ => []

/-- Modelled from the spec: `pickle.dump` writes a full serialized copy
of the database; the `pickle` library itself is outside `src/`, and the
spec's snapshot is "a full serialized copy of the Database", so
serialization is modelled as preserving the mapping exactly. -/
def pickleDump (db : Database) : Database := db

/-- Modelled from the spec: `pickle.load` restores the serialized
mapping exactly (the inverse of `pickleDump`). -/
def pickleLoad (snapshot : Database) : Database := snapshot

/-- `convert_history_to_dictionary` (model.py:121-158), with the file
system made explicit: `snapshot` is the content of `/state/database.pkl`
when that file exists.  The warm path deserializes and returns it
directly; the cold path builds from the CSV rows, replays the recovery
log, and writes the freshly built database back as the new snapshot.
The second component of the result is the snapshot written, `none` when
nothing was written. -/
def convert_history_to_dictionary (snapshot : Option Database)
    (csvRows : List (List (List Char))) (backupLines : List (List Char)) :
    Except PErr (Database × Option Database) :=
  match snapshot with
  | some snap => .ok (pickleLoad snap, none)
  | none =>
    match buildFromCsv csvRows with
    | .error e => .error e
    | .ok db0 =>
      match parse_history_file db0 backupLines with
      | .error e => .error e
      | .ok db1 => .ok (db1, some (pickleDump db1))

/-- The observable effect of a completed `sigterm_handler` call
(model.py:42-49): dump the database to the snapshot file, then
`sys.exit(0)`. -/
structure HandlerEffect where
  snapshotWritten : Option Database
  exited : Bool

/-- The body of `sigterm_handler` (model.py:42-49), which requires three
arguments: `signum`, `frame` and `database`. -/
def sigterm_handler (_signum : ℤ) (_frame : Unit) (db : Database) : HandlerEffect :=
  ⟨some (pickleDump db), true⟩

/-- Number of required parameters of `sigterm_handler` as defined at
model.py:42: `(signum, frame, database)`, none with a default. -/
def sigterm_handler_nparams : Nat := 3

/-- Modelled from the spec (Python runtime semantics, outside `src/`):
the `signal` module invokes a registered handler with exactly the two
arguments `(signum, frame)`. -/
def runtime_signal_args : Nat := 2

/-- What happens when SIGTERM is delivered to the process after
`signal.signal(signal.SIGTERM, sigterm_handler)` (model.py:298): the
runtime calls the registered function with `runtime_signal_args`
arguments; a Python call with fewer arguments than the function's
required parameters raises `TypeError` before the body runs, so the
handler's effect is produced only when the arities agree. -/
def deliver_sigterm (db : Database) : Option HandlerEffect :=
  if runtime_signal_args = sigterm_handler_nparams
  then some (sigterm_handler 15 () db)
  else none

/-- Length of a patient's result history, zero when the identifier is
unknown. -/
def resultsLen (db : Database) (q : List Char) : Nat :=
  match db q with
  | some rec => rec.results.length
  | none => 0

/-- The error classes the spec calls field extraction failures: missing
field, malformed date, non-numeric result. -/
def isExtractErr : PErr → Bool
  | .fieldMissing => true
  | .badDate => true
  | .badNumber => true
  | _ => false

/-- The database mutation performed by `lims_process` before its
demographic lookups: append the new value to the record's history. -/
def appendResult (db : Database) (q : List Char) (v : ℚ) : Database :=
  match db q with
  | some rec => dbUpdate db q { rec with results := rec.results ++ [v] }
  | none => db

/-- The database produced by a concrete cold bootstrap: one CSV data row
`"9",,5` and a header-only recovery log. -/
def coldDb10 : Database := dbUpdate emptyDB ['9'] ⟨[5], none, none⟩

theorem splitChar_not_mem {c : Char} : ∀ {s : List Char}, c ∉ s → splitChar c s = [s]
  | [], _ => rfl
  | x :: xs, h => by
    have hx : ¬ x = c := fun he => h (he ▸ List.mem_cons_self x xs)
    have hxs : c ∉ xs := fun hm => h (List.mem_cons_of_mem x hm)
    simp only [splitChar, if_neg hx, splitChar_not_mem hxs]

theorem splitChar_append {c : Char} :
    ∀ {s : List Char} (t : List Char), c ∉ s →
      splitChar c (s ++ c :: t) = s :: splitChar c t
  | [], t, _ => by simp [splitChar]
  | x :: xs, t, h => by
    have hx : ¬ x = c := fun he => h (he ▸ List.mem_cons_self x xs)
    have hxs : c ∉ xs := fun hm => h (List.mem_cons_of_mem x hm)
    have hrec := splitChar_append t hxs
    simp only [List.cons_append, splitChar, if_neg hx, List.append_eq] at hrec ⊢
    rw [hrec]

theorem splitChar_joinChar {c : Char} :
    ∀ (segs : List (List Char)), segs ≠ [] → (∀ s ∈ segs, c ∉ s) →
      splitChar c (joinChar c segs) = segs
  | [], h, _ => absurd rfl h
  | [s], _, h2 => by
    simpa [joinChar] using splitChar_not_mem (h2 s (List.mem_singleton.mpr rfl))
  | s :: s2 :: rest, _, h2 => by
    have hs : c ∉ s := h2 s (List.mem_cons_self _ _)
    have : joinChar c (s :: s2 :: rest) = s ++ c :: joinChar c (s2 :: rest) := rfl
    rw [this, splitChar_append _ hs,
      splitChar_joinChar (s2 :: rest) (by simp)
        (fun t ht => h2 t (List.mem_cons_of_mem s ht))]

theorem decodeAscii_map :
    ∀ {s : List Char}, (∀ ch ∈ s, ch.toNat < 128) →
      decodeAscii (s.map Char.toNat) = some s
  | [], _ => rfl
  | ch :: rest, h => by
    have hch : ch.toNat < 128 := h ch (List.mem_cons_self _ _)
    have hrest := decodeAscii_map (fun x hx => h x (List.mem_cons_of_mem ch hx))
    simp only [List.map_cons, decodeAscii, if_pos hch, hrest, Option.map_some',
      Char.ofNat_toNat]

theorem joinChar_ascii {segs : List (List Char)}
    (h : ∀ s ∈ segs, ∀ ch ∈ s, ch.toNat < 128) :
    ∀ ch ∈ joinChar CRchar segs, ch.toNat < 128 := by
  induction segs with
  | nil => intro ch hch; simp [joinChar] at hch
  | cons s rest ih =>
    intro ch hch
    match rest, hch with
    | [], hch => exact h s (List.mem_cons_self _ _) ch hch
    | s2 :: rest2, hch =>
      rw [show joinChar CRchar (s :: s2 :: rest2) = s ++ CRchar :: joinChar CRchar (s2 :: rest2)
        from rfl] at hch
      rcases List.mem_append.mp hch with hin | hin
      · exact h s (List.mem_cons_self _ _) ch hin
      · rcases List.mem_cons.mp hin with hcr | hin2
        · rw [hcr]; decide
        · exact ih (fun t ht => h t (List.mem_cons_of_mem s ht)) ch hin2

theorem from_mllp_to_mllp {segs : List (List Char)} (hne : segs ≠ [])
    (hascii : ∀ s ∈ segs, ∀ ch ∈ s, ch.toNat < 128)
    (hnocr : ∀ s ∈ segs, CRchar ∉ s) :
    from_mllp (to_mllp segs) = some segs := by
  have hsplit := splitChar_joinChar segs hne hnocr
  have hdec := decodeAscii_map (joinChar_ascii hascii)
  set J := joinChar CRchar segs with hJ
  have hCR : CRchar.toNat = 13 := rfl
  have hbuf : to_mllp segs = (11 :: J.map Char.toNat) ++ [13, 28, 13] := by
    show 11 :: (J ++ [CRchar]).map Char.toNat ++ [28, 13] = _
    rw [List.map_append]
    simp [hCR]
  rw [from_mllp, hbuf]
  have hlen2 : ((11 :: J.map Char.toNat) ++ [13, 28, 13]).length - 3 =
      (11 :: J.map Char.toNat).length := by simp
  rw [hlen2, List.take_left, List.drop_one, List.tail_cons, hdec, Option.map_some', hsplit]

theorem decodeAscii_eq_none {bs : List Nat} :
    decodeAscii bs = none ↔ bs.all (· < 128) = false := by
  induction bs with
  | nil => simp [decodeAscii]
  | cons b rest ih =>
    by_cases hb : b < 128
    · simp [decodeAscii, hb, ih]
    · simp [decodeAscii, hb]

theorem resultsLen_dbUpdate (db : Database) (k q : List Char) (v : PatientRecord) :
    resultsLen (dbUpdate db k v) q = if q = k then v.results.length else resultsLen db q := by
  by_cases h : q = k <;> simp [resultsLen, dbUpdate, h]

theorem pas_fst_cases (mrn : List Char) (message : List (List Char)) (db : Database) :
    (pas_process mrn message db).1 = db ∨
    (∃ rec sx a, db mrn = some rec ∧
      (pas_process mrn message db).1 = dbUpdate db mrn { rec with sex := some sx, age := some a }) ∨
    (∃ sx a, db mrn = none ∧
      (pas_process mrn message db).1 = dbUpdate db mrn ⟨[], some sx, some a⟩) := by
  unfold pas_process
  repeat' split
  all_goals
    first
    | exact Or.inl rfl
    | exact Or.inr (Or.inl ⟨_, _, _, by assumption, rfl⟩)
    | exact Or.inr (Or.inr ⟨_, _, by assumption, rfl⟩)

theorem pas_process_error_eq {mrn : List Char} {message : List (List Char)} {db : Database}
    {e : PErr} (h : (pas_process mrn message db).2 = .error e) :
    (pas_process mrn message db).1 = db := by
  unfold pas_process at h ⊢
  repeat' split at h
  all_goals simp_all

theorem pas_process_other {mrn q : List Char} {message : List (List Char)} {db : Database}
    (hq : q ≠ mrn) : (pas_process mrn message db).1 q = db q := by
  rcases pas_fst_cases mrn message db with h | ⟨rec, sx, a, _, h⟩ | ⟨sx, a, _, h⟩ <;>
    rw [h] <;> simp [dbUpdate, hq]

theorem resultsLen_pas (mrn : List Char) (message : List (List Char)) (db : Database)
    (q : List Char) : resultsLen db q ≤ resultsLen ((pas_process mrn message db).1) q := by
  rcases pas_fst_cases mrn message db with h | ⟨rec, sx, a, hdb, h⟩ | ⟨sx, a, hdb, h⟩
  · rw [h]
  · rw [h, resultsLen_dbUpdate]
    split
    · rename_i heq; subst heq; simp [resultsLen, hdb]
    · exact Nat.le_refl _
  · rw [h, resultsLen_dbUpdate]
    split
    · rename_i heq; subst heq; simp [resultsLen, hdb]
    · exact Nat.le_refl _

theorem lims_fst_cases (p : List Char) (message : List (List Char)) (db : Database) :
    (lims_process p message db).1 = db ∨
    ∃ rec v, db p = some rec ∧
      (lims_process p message db).1 = dbUpdate db p { rec with results := rec.results ++ [v] } := by
  unfold lims_process
  repeat' split
  all_goals first
    | exact Or.inl rfl
    | exact Or.inr ⟨_, _, by assumption, rfl⟩

theorem resultsLen_lims (p : List Char) (message : List (List Char)) (db : Database)
    (q : List Char) : resultsLen db q ≤ resultsLen ((lims_process p message db).1) q := by
  rcases lims_fst_cases p message db with h | ⟨rec, v, hdb, h⟩
  · rw [h]
  · rw [h, resultsLen_dbUpdate]
    split
    · rename_i heq; subst heq; simp [resultsLen, hdb]
    · exact Nat.le_refl _

theorem lims_extract_error_eq {p : List Char} {message : List (List Char)} {db : Database}
    {e : PErr} (h : (lims_process p message db).2 = .error e)
    (he : isExtractErr e = true) : (lims_process p message db).1 = db := by
  unfold lims_process at h ⊢
  repeat' split at h
  all_goals simp at h
  all_goals try (cases h; exact absurd he (by decide))
  all_goals simp_all

theorem lims_wrapped_extract {p : List Char} {message : List (List Char)} {db : Database}
    {e : PErr} (h : ((lims_process p message db).2).map (fun _ => ()) = .error e)
    (he : isExtractErr e = true) : (lims_process p message db).1 = db := by
  rcases h2 : (lims_process p message db).2 with e2 | v2
  · rw [h2] at h
    simp only [Except.map] at h
    cases h
    exact lims_extract_error_eq h2 he
  · rw [h2] at h
    simp [Except.map] at h

theorem process_message_extract_error_eq {message : List (List Char)} {db : Database}
    {e : PErr} (h : (process_message message db).2 = .error e)
    (he : isExtractErr e = true) : (process_message message db).1 = db := by
  unfold process_message at h ⊢
  repeat' split
  any_goals rfl
  all_goals simp_all
  · exact pas_process_error_eq h
  · exact lims_wrapped_extract h he

theorem resultsLen_process (message : List (List Char)) (db : Database) (q : List Char) :
    resultsLen db q ≤ resultsLen ((process_message message db).1) q := by
  unfold process_message
  repeat' split
  all_goals first
    | exact Nat.le_refl _
    | exact resultsLen_pas _ message db q
    | exact resultsLen_lims _ message db q

theorem buildFromCsvAux_not_mem {q : List Char} :
    ∀ {rows : List (List (List Char))} {db db' : Database},
      buildFromCsvAux db rows = .ok db' →
      q ∉ rows.filterMap (fun r => r[0]?) → db' q = db q := by
  intro rows
  induction rows with
  | nil => intro db db' h _; cases h; rfl
  | cons row rest ih =>
    intro db db' h hq
    unfold buildFromCsvAux at h
    rcases h0 : row[0]? with _ | mrn <;> rw [h0] at h
    · cases h
    · rcases h1 : parseResults (everySecond (row.drop 2)) with _ | rs <;> rw [h1] at h
      · cases h
      · have hmem : q ∉ rest.filterMap (fun r => r[0]?) := by
          intro hc
          exact hq (by simp [List.filterMap_cons, h0, hc])
        have hne : q ≠ mrn := by
          intro hc
          exact hq (by simp [List.filterMap_cons, h0, hc])
        rw [ih h hmem]
        simp [dbUpdate, hne]

theorem buildFromCsvAux_mem {q : List Char} :
    ∀ {rows : List (List (List Char))} {db db' : Database},
      buildFromCsvAux db rows = .ok db' →
      q ∈ rows.filterMap (fun r => r[0]?) →
      ∃ rs, db' q = some ⟨rs, none, none⟩ := by
  intro rows
  induction rows with
  | nil => intro db db' _ hq; simp at hq
  | cons row rest ih =>
    intro db db' h hq
    unfold buildFromCsvAux at h
    rcases h0 : row[0]? with _ | mrn <;> rw [h0] at h
    · cases h
    · rcases h1 : parseResults (everySecond (row.drop 2)) with _ | rs <;> rw [h1] at h
      · cases h
      · by_cases hrest : q ∈ rest.filterMap (fun r => r[0]?)
        · exact ih h hrest
        · have hqm : q = mrn := by
            rcases List.mem_filterMap.mp hq with ⟨r, hr, hget⟩
            rcases List.mem_cons.mp hr with hh | hh
            · rw [← hh] at h0; rw [h0] at hget
              exact (Option.some_injective _ hget).symm
            · exact absurd (List.mem_filterMap.mpr ⟨r, hh, hget⟩) hrest
          refine ⟨rs, ?_⟩
          rw [buildFromCsvAux_not_mem h hrest, hqm]
          simp [dbUpdate]

theorem replayPairs_not_mem {q : List Char} :
    ∀ {pairs : List (List Char × List Char)} {db db' : Database},
      replayPairs db pairs = .ok db' →
      q ∉ pairs.filterMap (fun pr => (splitChar '|' pr.2)[3]?) → db' q = db q := by
  intro pairs
  induction pairs with
  | nil => intro db db' h _; cases h; rfl
  | cons pr rest ih =>
    rcases pr with ⟨l1, l2⟩
    intro db db' h hq
    unfold replayPairs at h
    split at h
    · cases h
    · rename_i mrn h3
      split at h
      · rename_i db2 u hp
        have hmem : q ∉ rest.filterMap (fun x => (splitChar '|' x.2)[3]?) := by
          intro hc
          exact hq (by simp [List.filterMap_cons, h3, hc])
        have hne : q ≠ mrn := by
          intro hc
          exact hq (by simp [List.filterMap_cons, h3, hc])
        rw [ih h hmem]
        have hother := @pas_process_other mrn q [l1, l2] db hne
        rw [hp] at hother
        exact hother
      · cases h

theorem lims_noSex {p : List Char} {message : List (List Char)} {db : Database}
    {rec : PatientRecord} {seg3 cell : List Char} {v : ℚ}
    (h3 : message[3]? = some seg3)
    (h5 : (splitChar '|' seg3)[5]? = some cell)
    (hv : parseFloat cell = some v)
    (hdb : db p = some rec) (hsex : rec.sex = none) :
    lims_process p message db =
      (dbUpdate db p { rec with results := rec.results ++ [v] }, .error .noSex) := by
  unfold lims_process
  simp only [h3, h5, hv, hdb, hsex]

theorem drop_eq_reverse_take (l : List ℚ) (k : Nat) :
    l.drop (l.length - k) = (l.reverse.take k).reverse := by
  have h := List.rtake_eq_reverse_take_reverse l k
  rw [List.rtake] at h
  exact h

/-- Claim C1, as frozen, is false: a segment may contain the carriage
return, which is an ASCII character, and then the decoded message splits
it into two segments.  Concretely `["A\r"]` encodes and decodes to
`["A", ""]`. -/
theorem C1_counterexample :
    ¬ (∀ segs : List (List Char), segs ≠ [] →
        (∀ s ∈ segs, s ≠ [] ∧ ∀ ch ∈ s, ch.toNat < 128) →
        from_mllp (to_mllp segs) = some segs) := by
  intro h
  have hc := h [['A', CRchar]] (by decide) (by decide)
  revert hc
  decide

/-- Claim C1 (amended): for every non-empty sequence of non-empty ASCII
segments **none of which contains the carriage-return delimiter**,
decoding the encoding returns the original sequence:
`from_mllp (to_mllp segments) = segments`. -/
theorem C1_round_trip (segs : List (List Char)) (hne : segs ≠ [])
    (hseg : ∀ s ∈ segs, s ≠ [] ∧ ∀ ch ∈ s, ch.toNat < 128 ∧ ch ≠ CRchar) :
    from_mllp (to_mllp segs) = some segs :=
  from_mllp_to_mllp hne
    (fun s hs ch hch => ((hseg s hs).2 ch hch).1)
    (fun s hs hmem => ((hseg s hs).2 _ hmem).2 rfl)

/-- Witness for C1: the round trip on a concrete two-segment message. -/
theorem C1_round_trip_witness :
    from_mllp (to_mllp [("MSH|A").toList, ("PID|1").toList]) =
      some [("MSH|A").toList, ("PID|1").toList] :=
  C1_round_trip _ (by decide) (by decide)

/-- Claim C4, as frozen, is false: `buffer[1:-3]` never raises in
Python, so an input shorter than 4 bytes (here a single non-ASCII byte,
satisfying both alternatives of the claim's hypothesis) decodes
successfully to `[""]` instead of failing. -/
theorem C4_counterexample :
    ¬ (∀ buffer : List Nat,
        (buffer.length < 4 ∨ buffer.all (fun b => b < 128) = false) →
        from_mllp buffer = none) := by
  intro h
  have hc := h [255] (by decide)
  revert hc
  decide

/-- Claim C4 (amended): frame decoding fails iff one of the bytes it
retains after stripping — `buffer[1:-3]` — is not ASCII; an input
shorter than 4 bytes retains nothing and therefore always decodes
successfully (to the single empty segment). -/
theorem C4_decode_failure_iff :
    (∀ buffer : List Nat, buffer.length < 4 → from_mllp buffer = some [[]]) ∧
    (∀ buffer : List Nat,
      (from_mllp buffer = none ↔
        ((buffer.take (buffer.length - 3)).drop 1).all (fun b => b < 128) = false)) := by
  constructor
  · intro buffer hlen
    have hmid : (buffer.take (buffer.length - 3)).drop 1 = [] := by
      have h2 : (buffer.take (buffer.length - 3)).length ≤ 1 := by
        rw [List.length_take]
        omega
      rcases hl : buffer.take (buffer.length - 3) with _ | ⟨a, rest⟩
      · rfl
      · rw [hl] at h2
        simp only [List.length_cons] at h2
        have : rest = [] := List.eq_nil_of_length_eq_zero (by omega)
        rw [this]
        rfl
    rw [from_mllp, hmid]
    rfl
  · intro buffer
    rw [from_mllp]
    constructor
    · intro h
      exact decodeAscii_eq_none.mp (Option.map_eq_none'.mp h)
    · intro h
      rw [decodeAscii_eq_none.mpr h]
      rfl

/-- Witness for C4: a 3-byte input decodes successfully. -/
theorem C4_decode_failure_iff_witness : from_mllp [11, 28, 13] = some [[]] :=
  C4_decode_failure_iff.1 [11, 28, 13] (by decide)

/-- Claim C5: once a non-empty frame was read, the fixed acknowledgment
frame is written back whether or not the frame decoded and processed
successfully (the bare `except: pass` swallows every processing error
before the `sendall`). -/
theorem C5_ack_unconditional (buffer : List Nat) (db : Database) (h : buffer ≠ []) :
    (handle_frame buffer db).2 = some (to_mllp ACK) := by
  unfold handle_frame
  rw [if_neg h]
  cases from_mllp buffer <;> rfl

/-- Witness for C5: a malformed frame (no end-of-block marker) is still
acknowledged. -/
theorem C5_ack_unconditional_witness :
    (handle_frame [11, 65, 66, 67] emptyDB).2 = some (to_mllp ACK) :=
  C5_ack_unconditional _ emptyDB (by decide)

/-- Claim C6: for every patient identifier, one processed message never
shrinks the stored result history — admissions overwrite only the
demographics, discharges do nothing, lab results append, and every error
path leaves the history as it was or already appended. -/
theorem C6_results_monotone (message : List (List Char)) (db : Database) (q : List Char) :
    resultsLen db q ≤ resultsLen ((process_message message db).1) q :=
  resultsLen_process message db q

/-- Claim C7: a discharge message (event-code field containing `"A03"`)
processed by `pas_process` returns immediately: the database is returned
untouched for every database state, so no record is created or
mutated. -/
theorem C7_discharge_noop (mrn : List Char) (message : List (List Char)) (db : Database)
    (seg0 evt : List Char)
    (h0 : message[0]? = some seg0)
    (h8 : (splitChar '|' seg0)[8]? = some evt)
    (hA03 : hasSubstr a03code evt = true) :
    pas_process mrn message db = (db, .ok ()) := by
  unfold pas_process
  simp only [h0, h8, hA03, if_true]

/-- Witness for C7: the discharge message from the repository's unit
tests leaves the empty database empty. -/
theorem C7_discharge_noop_witness :
    pas_process ("497030").toList
      [("MSH|^~\\&|SIMULATION|SOUTH RIVERSIDE|||20240102135300||ADT^A03|||2.5").toList,
       ("PID|1||497030||ROSCOE DOHERTY||19870515|M").toList] emptyDB = (emptyDB, .ok ()) :=
  C7_discharge_noop _ _ _ _ _ rfl rfl (by decide)

/-- Claim C2: for a record carrying sex and age, processing a lab-result
value yields the pair of the database with the value appended and the
7-element feature vector `[age, sex_indicator, r5, r4, r3, r2, r1]`:
the sex indicator is 1 exactly for `'M'`; with at least five results
(counting the new one) the five most recent appear oldest first,
otherwise the missing leading positions hold the arithmetic mean of the
(shorter) history. -/
theorem C2_feature_vector (p : List Char) (message : List (List Char)) (db : Database)
    (seg3 cell : List Char) (v : ℚ) (rec : PatientRecord) (sx : List Char) (a : ℤ)
    (h3 : message[3]? = some seg3)
    (h5 : (splitChar '|' seg3)[5]? = some cell)
    (hv : parseFloat cell = some v)
    (hdb : db p = some rec) (hsex : rec.sex = some sx) (hage : rec.age = some a) :
    lims_process p message db =
      (dbUpdate db p { rec with results := rec.results ++ [v] },
        .ok ((a : ℚ) :: (if sx = ['M'] then (1 : ℚ) else 0) ::
          (if 5 ≤ (rec.results ++ [v]).length
           then ((rec.results ++ [v]).reverse.take 5).reverse
           else List.replicate (5 - (rec.results ++ [v]).length)
              ((rec.results ++ [v]).sum / ((rec.results ++ [v]).length : ℚ))
              ++ (rec.results ++ [v])))) ∧
    ((a : ℚ) :: (if sx = ['M'] then (1 : ℚ) else 0) ::
      (if 5 ≤ (rec.results ++ [v]).length
       then ((rec.results ++ [v]).reverse.take 5).reverse
       else List.replicate (5 - (rec.results ++ [v]).length)
          ((rec.results ++ [v]).sum / ((rec.results ++ [v]).length : ℚ))
          ++ (rec.results ++ [v]))).length = 7 := by
  constructor
  · unfold lims_process
    simp only [h3, h5, hv, hdb, hsex, hage]
    rw [drop_eq_reverse_take]
  · simp only [List.length_cons]
    split
    · rename_i h5l
      rw [List.length_reverse, List.length_take, List.length_reverse]
      omega
    · rename_i h5l
      rw [List.length_append, List.length_replicate]
      have : (rec.results ++ [v]).length ≠ 0 := by simp
      omega

/-- Witness for C2: the spec's scenario — history `[10,20,30,40]`, male,
age 22, new value `50` — yields the vector `[22, 1, 10, 20, 30, 40, 50]`
and the appended history. -/
theorem C2_feature_vector_witness :
    lims_process ['p'] [[], [], [], ("OBX|1|SN|CREATININE||50").toList]
        (dbUpdate emptyDB ['p'] ⟨[10, 20, 30, 40], some ['M'], some 22⟩) =
      (dbUpdate (dbUpdate emptyDB ['p'] ⟨[10, 20, 30, 40], some ['M'], some 22⟩) ['p']
          ⟨[10, 20, 30, 40, 50], some ['M'], some 22⟩,
        .ok [22, 1, 10, 20, 30, 40, 50]) := by
  have h := (C2_feature_vector ['p'] [[], [], [], ("OBX|1|SN|CREATININE||50").toList]
    (dbUpdate emptyDB ['p'] ⟨[10, 20, 30, 40], some ['M'], some 22⟩)
    _ _ 50 ⟨[10, 20, 30, 40], some ['M'], some 22⟩ ['M'] 22
    rfl rfl (by decide) (by decide) rfl rfl).1
  exact h

/-- Claim C3: when field extraction fails on a decoded inbound message
(missing field, malformed date, or non-numeric result), the frame is
dropped but still acknowledged and the database is exactly as before the
message was processed. -/
theorem C3_extract_failure_drops_frame (buffer : List Nat) (db : Database)
    (message : List (List Char)) (e : PErr)
    (hne : buffer ≠ [])
    (hdec : from_mllp buffer = some message)
    (herr : (process_message message db).2 = .error e)
    (hext : isExtractErr e = true) :
    handle_frame buffer db = (db, some (to_mllp ACK)) := by
  unfold handle_frame
  rw [if_neg hne]
  simp only [hdec]
  rw [process_message_extract_error_eq herr hext]

/-- Witness for C3: a frame whose message has no 9th field in its first
segment is dropped with the database unchanged, and acknowledged. -/
theorem C3_extract_failure_drops_frame_witness :
    handle_frame [11, 77, 83, 72, 13, 28, 13] emptyDB = (emptyDB, some (to_mllp ACK)) :=
  C3_extract_failure_drops_frame [11, 77, 83, 72, 13, 28, 13] emptyDB
    [['M', 'S', 'H']] .fieldMissing (by decide) (by decide) (by decide) (by decide)

/-- Claim C8: cold bootstrap (historical CSV plus recovery log) writes
exactly the database it returns as the snapshot, and deserializing that
snapshot restores identical per-patient records; when a prior snapshot
exists, bootstrap deserializes and returns it directly, ignoring the
cold sources. -/
theorem C8_bootstrap_equivalence :
    (∀ snap rows lines,
      convert_history_to_dictionary (some snap) rows lines = .ok (pickleLoad snap, none)) ∧
    (∀ rows lines db w,
      convert_history_to_dictionary none rows lines = .ok (db, w) →
      w = some (pickleDump db) ∧ ∀ q, pickleLoad (pickleDump db) q = db q) := by
  constructor
  · intro snap rows lines
    rfl
  · intro rows lines db w h
    unfold convert_history_to_dictionary at h
    rcases h0 : buildFromCsv rows with e | db0 <;> simp only [h0] at h
    · cases h
    · rcases h1 : parse_history_file db0 lines with e | db1 <;> simp only [h1] at h
      · cases h
      · obtain ⟨hdb, hw⟩ := by simpa using h
        subst hdb
        exact ⟨hw.symm, fun q => rfl⟩

/-- Witness for C8: a cold bootstrap from an empty CSV body and a
header-only recovery log writes the empty database as its snapshot, and
the snapshot restores it. -/
theorem C8_bootstrap_equivalence_witness :
    pickleLoad (pickleDump emptyDB) ['x'] = emptyDB ['x'] :=
  ((C8_bootstrap_equivalence.2 [] [[], []] emptyDB (some (pickleDump emptyDB))) rfl).2 ['x']

/-- Claim C9: the code registers `sigterm_handler` directly, but the
handler requires a third `database` argument that the signal runtime
never supplies, so delivering SIGTERM raises `TypeError` instead of
running the checkpoint-then-exit body — the handler's own body would
checkpoint and exit, but it is unreachable as registered. -/
theorem C9_sigterm_handler_unreachable (db : Database) :
    deliver_sigterm db = none ∧
    sigterm_handler 15 () db = ⟨some (pickleDump db), true⟩ :=
  ⟨rfl, rfl⟩

/-- Claim C10: an identifier present in the historical CSV but in no
recovery-log admission pair comes out of cold bootstrap with a record
holding only results (no sex, no age); a subsequent lab-result message
for it first appends the new value to the history and only then fails at
the `"sex"` lookup, leaving the appended history in the returned
database. -/
theorem C10_csv_only_record (rows : List (List (List Char))) (lines : List (List Char))
    (db1 : Database) (w : Option Database) (p : List Char)
    (message : List (List Char)) (seg3 cell : List Char) (v : ℚ)
    (hboot : convert_history_to_dictionary none rows lines = .ok (db1, w))
    (hcsv : p ∈ rows.filterMap (fun r => r[0]?))
    (hlog : p ∉ backupMrns lines)
    (h3 : message[3]? = some seg3)
    (h5 : (splitChar '|' seg3)[5]? = some cell)
    (hv : parseFloat cell = some v) :
    (db1 p).map PatientRecord.sex = some none ∧
    (db1 p).map PatientRecord.age = some none ∧
    lims_process p message db1 = (appendResult db1 p v, .error .noSex) := by
  unfold convert_history_to_dictionary at hboot
  rcases h0 : buildFromCsv rows with e | db0 <;> simp only [h0] at hboot
  · cases hboot
  · rcases h1 : parse_history_file db0 lines with e | db1c <;> simp only [h1] at hboot
    · cases hboot
    · obtain ⟨hdb, hw⟩ := by simpa using hboot
      subst hdb
      obtain ⟨rs, hrec⟩ := buildFromCsvAux_mem h0 hcsv
      have hpres : db1c p = db0 p := by
        unfold parse_history_file at h1
        rcases lines with _ | ⟨l1, ls⟩
        · cases h1
        · rcases ls with _ | ⟨l2, rest⟩
          · cases h1
          · have hmrns : p ∉ (toPairs rest).filterMap
                (fun pr => (splitChar '|' pr.2)[3]?) := by
              simpa [backupMrns] using hlog
            exact replayPairs_not_mem h1 hmrns
      rw [hpres, hrec]
      refine ⟨rfl, rfl, ?_⟩
      have hlim := @lims_noSex p message db1c ⟨rs, none, none⟩ _ _ v h3 h5 hv
        (by rw [hpres, hrec]) rfl
      rw [hlim]
      unfold appendResult
      simp only [hpres, hrec]

/-- Witness for C10: a one-row CSV (identifier `"9"`, one result `5`)
and a header-only recovery log produce a demographics-free record, and a
lab result `60` for `"9"` is appended before the lookup fails. -/
theorem C10_csv_only_record_witness :
    ((coldDb10) ['9']).map PatientRecord.sex = some none ∧
    ((coldDb10) ['9']).map PatientRecord.age = some none ∧
    lims_process ['9'] [[], [], [], ("OBX|1|SN|CREATININE||60").toList] coldDb10 =
      (appendResult coldDb10 ['9'] 60, .error .noSex) :=
  C10_csv_only_record [[['9'], [], ['5']]] [[], []] coldDb10 (some (pickleDump coldDb10))
    ['9'] [[], [], [], ("OBX|1|SN|CREATININE||60").toList] _ _ 60
    rfl (by decide) (by decide) rfl rfl (by decide)

end AkiClient
